import Mathlib

/-!
Shallow embedding of `AI-Movie-Recommender/Program.cpp` (a Letterboxd diary
CSV reader/report tool) and verification of its specification claims.

Modelling conventions:
* `std::string` is modelled as `String` / `List Char` (the source only ever
  feeds ASCII-relevant data through comparisons, where C++ byte order and
  Lean character order agree).
* `double` is modelled as `Rat`; every numeric value the specification
  mentions (half-point ratings in [0,5]) is exactly representable as a
  binary double, so exact rational arithmetic is faithful on them.
* `std::stod` is modelled on its decimal input forms (sign, digits, decimal
  point, exponent); the hexadecimal / "inf" / "nan" forms of `strtod` are
  not modelled, and no claim depends on them.
* `std::sort` (used in `main`) is modelled by its contract from the C++
  standard: the result is a permutation of the input that is sorted with
  respect to the comparator (`is_sorted`: no adjacent pair with
  `comp(next, prev)`).  Stability is deliberately NOT part of that
  contract (that is what `std::stable_sort` provides), so the model is a
  relation between input and admissible outputs.
-/

/-! ## Field trimmer (Program.cpp lines 24-31) -/

/-- Characters stripped by `trim`: the C++ code searches for the first and
last character not in `" \t\r\n\""` (note that the set includes the double
quote). -/
def isTrimChar (c : Char) : Bool :=
  c.toNat = 32 || c.toNat = 9 || c.toNat = 13 || c.toNat = 10 || c.toNat = 34

/-- `trim` (lines 24-31): removes leading and trailing whitespace and quote
characters; returns `""` when the input consists only of such characters. -/
def trim (s : String) : String :=
  String.mk (((s.data.dropWhile isTrimChar).reverse.dropWhile isTrimChar).reverse)

/-! ## CSV line parser (Program.cpp lines 34-58) -/

/-- The character loop of `parseCSVLine`: a quote toggles `inQuotes` (and is
never appended to the field), a comma outside quotes ends the current field,
any other character is appended.  After the loop the final field is trimmed
and appended. -/
def parseCSVAux : List Char → Bool → List Char → List String
  | [], _, field => [trim (String.mk field)]
  | c :: rest, inQuotes, field =>
    if c.toNat = 34 then parseCSVAux rest (!inQuotes) field
    else if c.toNat = 44 ∧ inQuotes = false then
      trim (String.mk field) :: parseCSVAux rest inQuotes []
    else parseCSVAux rest inQuotes (field ++ [c])

/-- `parseCSVLine` (lines 34-58). -/
def parseCSVLine (line : String) : List String :=
  parseCSVAux line.data false []

/-! ## Safe numeric converter (Program.cpp lines 61-76) -/

/-- The whitespace characters skipped by `strtod` before the number
(space, tab, newline, vertical tab, form feed, carriage return). -/
def isSpaceChar (c : Char) : Bool :=
  c.toNat = 32 || c.toNat = 9 || c.toNat = 10 || c.toNat = 11 ||
    c.toNat = 12 || c.toNat = 13

/-- Decimal digit test (`'0'` to `'9'`). -/
def isDigitChar (c : Char) : Bool :=
  48 ≤ c.toNat && c.toNat ≤ 57

/-- Value of a digit string read left to right. -/
def digitsVal (l : List Char) : Nat :=
  l.foldl (fun acc c => 10 * acc + (c.toNat - 48)) 0

/-- Exponent part of a decimal literal, as consumed by `strtod`:
`e`/`E`, an optional sign, and at least one digit.  Returns
(exponent is negative, exponent magnitude, characters consumed); if no
well-formed exponent follows, nothing is consumed. -/
def parseExpPart (l : List Char) : Bool × Nat × Nat :=
  match l with
  | c :: rest =>
    if c.toNat = 101 ∨ c.toNat = 69 then
      match rest with
      | s :: rest2 =>
        if s.toNat = 43 ∨ s.toNat = 45 then
          let ds := rest2.takeWhile isDigitChar
          if ds.length = 0 then (false, 0, 0)
          else (s.toNat = 45, digitsVal ds, 2 + ds.length)
        else
          let ds := rest.takeWhile isDigitChar
          if ds.length = 0 then (false, 0, 0)
          else (false, digitsVal ds, 1 + ds.length)
      | [] => (false, 0, 0)
    else (false, 0, 0)
  | [] => (false, 0, 0)

/-- Unsigned decimal literal as consumed by `strtod`: digits, an optional
decimal point with further digits, and an optional exponent; at least one
digit must be present, otherwise no conversion is performed.  Returns the
value and the number of characters consumed. -/
def parseDecAux (l : List Char) : Option (Rat × Nat) :=
  let intDs := l.takeWhile isDigitChar
  let rest1 := l.drop intDs.length
  let hasDot : Bool := match rest1 with | c :: _ => c.toNat = 46 | [] => false
  let fracDs := if hasDot then (rest1.drop 1).takeWhile isDigitChar else []
  if intDs.length + fracDs.length = 0 then none
  else
    let numLen := intDs.length + (if hasDot then 1 else 0) + fracDs.length
    let mantissa : Rat :=
      (digitsVal intDs : Rat) + (digitsVal fracDs : Rat) / ((10 : Rat) ^ fracDs.length)
    let e := parseExpPart (l.drop numLen)
    let value : Rat :=
      if e.1 then mantissa / ((10 : Rat) ^ e.2.1) else mantissa * ((10 : Rat) ^ e.2.1)
    some (value, numLen + e.2.2)

/-- Signed decimal literal: an optional `+`/`-` before the unsigned part. -/
def parseDecSigned (l : List Char) : Option (Rat × Nat) :=
  match l with
  | c :: rest =>
    if c.toNat = 43 then (parseDecAux rest).map (fun p => (p.1, p.2 + 1))
    else if c.toNat = 45 then (parseDecAux rest).map (fun p => (-p.1, p.2 + 1))
    else parseDecAux l
  | [] => parseDecAux l

/-- Model of `std::stod` on its decimal forms: skip leading whitespace, then
parse a signed decimal literal.  `none` models the `invalid_argument`
exception (no conversion possible); otherwise the value and the index of the
first unconverted character are returned (the `idx` out-parameter). -/
def stodQ (s : String) : Option (Rat × Nat) :=
  let ws := (s.data.takeWhile isSpaceChar).length
  (parseDecSigned (s.data.drop ws)).map (fun p => (p.1, p.2 + ws))

/-- `safeStringToDouble` (lines 61-76): empty input gives 0; a failed parse
(`catch`) gives 0; a parse that does not consume the whole string
(`idx != str.length()`) gives 0; otherwise the parsed value.  Total by
construction, modelling "never raises". -/
def safeStringToDouble (s : String) : Rat :=
  if s = "" then 0
  else
    match stodQ s with
    | none => 0
    | some p => if p.2 = s.length then p.1 else 0

/-! ## Movie record and diary reader (Program.cpp lines 12-21 and 79-163) -/

/-- The `Movie` struct (lines 12-21); fields in declaration order:
date, name, year, letterboxdURI, rating, rewatch, tags, watchedDate. -/
structure Movie where
  date : String
  name : String
  year : String
  letterboxdURI : String
  rating : String
  rewatch : String
  tags : String
  watchedDate : String
deriving DecidableEq

/-- Positional mapping of parsed fields into a `Movie` (lines 135-143):
`fields.size() > k ? fields[k] : ""`. -/
def mkMovie (fields : List String) : Movie :=
  ⟨fields.getD 0 "", fields.getD 1 "", fields.getD 2 "", fields.getD 3 "",
   fields.getD 4 "", fields.getD 5 "", fields.getD 6 "", fields.getD 7 ""⟩

/-- Removal of one trailing carriage return (lines 110-112). -/
def stripCR (line : String) : String :=
  if line.data.getLast? = some '\r' then String.mk line.data.dropLast else line

/-- The per-line loop body of `readLetterboxdCSV` applied to all lines after
the header (lines 106-156): strip a trailing CR, skip empty lines, parse,
and admit a record exactly when at least two fields are present.  The
`try`/`catch` around the body is unreachable in the model because
`parseCSVLine` and `mkMovie` are total. -/
def readDataLines : List String → List Movie
  | [] => []
  | line :: rest =>
    let l := stripCR line
    if l = "" then readDataLines rest
    else if 2 ≤ (parseCSVLine l).length then
      mkMovie (parseCSVLine l) :: readDataLines rest
    else readDataLines rest

/-- `readLetterboxdCSV` on an opened source, given its lines (lines
102-162): the first line is always treated as the header and discarded, the
rest are processed by `readDataLines`.  The returned value is ONLY the
record vector; the skipped-line diagnostics exist solely as `cerr` text. -/
def readLetterboxdCSV : List String → List Movie
  | [] => []
  | _header :: rest => readDataLines rest

/-- `readLetterboxdCSV` including the open step (lines 83-100): `none`
models a source that cannot be opened, for which the function prints to
`cerr` and returns the (empty) vector — the same type of value, with no
extra signal, as for a readable source. -/
def readLetterboxdCSVFile : Option (List String) → List Movie
  | none => []
  | some lines => readLetterboxdCSV lines

/-- Following the spec's words (a refinement target, not code from the
source): the count of data lines skipped as malformed — nonempty lines
(after CR stripping) whose parse yields fewer than two fields — which the
spec claims the Diary Reader returns alongside the records. -/
def specSkippedCount : List String → Nat
  | [] => 0
  | _header :: rest =>
    (rest.filter fun line =>
      decide (stripCR line ≠ "" ∧ (parseCSVLine (stripCR line)).length < 2)).length

/-! ## Star rendering (Program.cpp lines 166-186) -/

/-- The C cast `(int)ratingValue` (line 174): truncation toward zero. -/
def ratTrunc (q : Rat) : Int :=
  if 0 ≤ q then ⌊q⌋ else ⌈q⌉

/-- `ratingToStars` (lines 166-186): empty rating or a rating converting to
0 renders nothing; otherwise one `*` per truncated integer point, `½` when
the fractional remainder is at least one half, then the literal
`" (rating/5)"`. -/
def ratingToStars (rating : String) : String :=
  if rating = "" then ""
  else
    let ratingValue := safeStringToDouble rating
    if ratingValue = 0 then ""
    else
      let fullStars : Int := ratTrunc ratingValue
      let stars := String.mk (List.replicate fullStars.toNat '*')
      let withHalf :=
        if (1 : Rat)/2 ≤ ratingValue - (fullStars : Rat) then stars ++ "½" else stars
      withHalf ++ " (" ++ rating ++ "/5)"

/-! ## Statistics (Program.cpp lines 361-383) -/

/-- Accumulator of the statistics loop (lines 361-376). -/
structure DiaryStats where
  ratedMovies : Nat
  totalRating : Rat
  rewatchCount : Nat
deriving DecidableEq

/-- One iteration of the statistics loop (lines 365-376): a record counts as
rated when its rating text is nonempty and converts to a value strictly
greater than 0 (the code tests `rating > 0.0`); a record counts as a rewatch
when its rewatch text is nonempty and differs from `"No"`. -/
def statsStep (s : DiaryStats) (m : Movie) : DiaryStats :=
  let s1 :=
    if m.rating ≠ "" ∧ 0 < safeStringToDouble m.rating then
      ⟨s.ratedMovies + 1, s.totalRating + safeStringToDouble m.rating, s.rewatchCount⟩
    else s
  if m.rewatch ≠ "" ∧ m.rewatch ≠ "No" then
    ⟨s1.ratedMovies, s1.totalRating, s1.rewatchCount + 1⟩
  else s1

/-- The whole statistics loop (lines 361-376). -/
def computeStats (movies : List Movie) : DiaryStats :=
  movies.foldl statsStep ⟨0, 0, 0⟩

/-- The displayed average (lines 378-379): total over count. -/
def averageRating (movies : List Movie) : Rat :=
  (computeStats movies).totalRating / ((computeStats movies).ratedMovies : Rat)

/-! ## Display ordering in `main` (Program.cpp lines 302-317) -/

/-- `std::string` `operator<`: lexicographic comparison, character by
character (byte by byte in C++; identical on the ASCII data involved). -/
def cppStrLt : List Char → List Char → Bool
  | [], [] => false
  | [], _ :: _ => true
  | _ :: _, [] => false
  | a :: as, b :: bs =>
    if a.toNat < b.toNat then true
    else if b.toNat < a.toNat then false
    else cppStrLt as bs

/-- The alphabetical comparator of line 307-309: `a.name < b.name`. -/
def movieNameLtB (a b : Movie) : Bool :=
  cppStrLt a.name.data b.name.data

/-- The rating comparator of lines 312-316: `ratingA > ratingB` with both
ratings put through `safeStringToDouble`. -/
def movieRatingGtB (a b : Movie) : Bool :=
  decide (safeStringToDouble b.rating < safeStringToDouble a.rating)

/-- `std::is_sorted` with respect to `f` read as "adjacent pair (a, b) is
admissible": every adjacent pair satisfies `f`. -/
def adjSortedB (f : Movie → Movie → Bool) : List Movie → Bool
  | [] => true
  | [_] => true
  | a :: b :: rest => f a b && adjSortedB f (b :: rest)

/-- The contract of `std::sort(first, last, comp)` from the C++ standard:
the range is replaced by a permutation of itself that is sorted with
respect to `comp`, i.e. no adjacent pair has `comp next prev`.  Stability
is not guaranteed (that is `std::stable_sort`), so distinct outputs can be
admissible for one input. -/
abbrev IsCppSortResult (comp : Movie → Movie → Bool) (input output : List Movie) : Prop :=
  input.Perm output ∧ adjSortedB (fun a b => !comp b a) output = true

/-- Relative ingestion order preserved for key-equal records, the stability
property the spec asserts: any two key-equal records of the output appear in
an order in which they also appear in the input. -/
abbrev relOrderPreserved (sameKey : Movie → Movie → Prop)
    (input output : List Movie) : Prop :=
  ∀ i j : Fin output.length, i.val < j.val → sameKey (output.get i) (output.get j) →
    ∃ i' j' : Fin input.length, i'.val < j'.val ∧
      input.get i' = output.get i ∧ input.get j' = output.get j

/-- The reordering step of `main` (lines 302-317), relating the record
vector before the sort to the (same, in-place mutated) vector after it:
choice `"2"` reverses, `"3"` sorts by name, `"4"` sorts by rating
descending, anything else leaves the vector untouched. -/
abbrev stepMainOrdering (sortChoice : String) (input output : List Movie) : Prop :=
  if sortChoice = "2" then output = input.reverse
  else if sortChoice = "3" then IsCppSortResult movieNameLtB input output
  else if sortChoice = "4" then IsCppSortResult movieRatingGtB input output
  else output = input

/-! ## Concrete records used to instantiate the claims -/

/-- Two distinct records with the same name (field order: date, name, year,
letterboxdURI, rating, rewatch, tags, watchedDate). -/
def movieA : Movie := ⟨"2024-03-01", "Dune", "2021", "", "4", "No", "", ""⟩

/-- Second record with the same name as `movieA` but a different year. -/
def movieB : Movie := ⟨"2024-03-02", "Dune", "1984", "", "3", "No", "", ""⟩

/-- A record with a negative (hence nonzero but not positive) rating. -/
def movieNegRated : Movie := ⟨"2024-03-03", "Nope", "2022", "", "-1", "No", "", ""⟩

/-- A record rated 4. -/
def movieRated4 : Movie := ⟨"2024-03-04", "Arrival", "2016", "", "4", "No", "", ""⟩

/-- A record rated 0. -/
def movieRated0 : Movie := ⟨"2024-03-05", "Heat", "1995", "", "0", "No", "", ""⟩

/-- A record with an empty rating. -/
def movieUnrated : Movie := ⟨"2024-03-06", "Ronin", "1998", "", "", "Yes", "", ""⟩

/-! ## Helper lemmas -/

/-- Membership survives `dropWhile`. -/
theorem mem_of_mem_dropWhileChar {p : Char → Bool} {l : List Char} {c : Char}
    (h : c ∈ l.dropWhile p) : c ∈ l :=
  (List.dropWhile_suffix p).subset h

/-- `trim` only removes characters. -/
theorem mem_trim {s : String} {c : Char} (h : c ∈ (trim s).data) : c ∈ s.data := by
  have h1 : c ∈ ((s.data.dropWhile isTrimChar).reverse.dropWhile isTrimChar).reverse := h
  have h2 := mem_of_mem_dropWhileChar (List.mem_reverse.mp h1)
  exact mem_of_mem_dropWhileChar (List.mem_reverse.mp h2)

/-- Invariant of the scanning loop: if the accumulated field contains no
quote character, no produced field contains one — a quote only toggles the
state and is never appended. -/
theorem parseCSVAux_no_quote (l : List Char) :
    ∀ (inQ : Bool) (field : List Char), (∀ c ∈ field, c.toNat ≠ 34) →
      ∀ f ∈ parseCSVAux l inQ field, ∀ c ∈ f.data, c.toNat ≠ 34 := by
  induction l with
  | nil =>
    intro inQ field hf f hmem c hc
    simp [parseCSVAux] at hmem
    subst hmem
    exact hf c (mem_trim hc)
  | cons ch rest ih =>
    intro inQ field hf f hmem c hc
    simp only [parseCSVAux] at hmem
    by_cases h34 : ch.toNat = 34
    · rw [if_pos h34] at hmem
      exact ih _ _ hf f hmem c hc
    · rw [if_neg h34] at hmem
      by_cases hcomma : ch.toNat = 44 ∧ inQ = false
      · rw [if_pos hcomma] at hmem
        rcases List.mem_cons.mp hmem with h | h
        · subst h
          exact hf c (mem_trim hc)
        · exact ih _ _ (by simp) f h c hc
      · rw [if_neg hcomma] at hmem
        refine ih _ _ ?_ f hmem c hc
        intro x hx
        rcases List.mem_append.mp hx with h | h
        · exact hf x h
        · simp at h
          subst h
          exact h34

/-- The reader admits exactly the nonempty lines parsing to at least two
fields, in order, mapped positionally into records. -/
theorem readDataLines_eq (rest : List String) :
    readDataLines rest =
      ((rest.map stripCR).filter fun l =>
        decide (l ≠ "" ∧ 2 ≤ (parseCSVLine l).length)).map
        fun l => mkMovie (parseCSVLine l) := by
  induction rest with
  | nil => rfl
  | cons line rest2 ih =>
    by_cases hempty : stripCR line = ""
    · simp [readDataLines, hempty, ih]
    · by_cases hlen : 2 ≤ (parseCSVLine (stripCR line)).length
      · simp [readDataLines, hempty, hlen, ih]
      · simp [readDataLines, hempty, hlen, ih]

/-! ## Claim theorems -/

/-- Claim C8: the CSV line parser splits the sample diary line into exactly
the eight expected fields, treating commas inside quoted spans as text and
trimming each field. -/
theorem parseCSVLine_quoted_commas :
    parseCSVLine "2024-01-01,\"Movie, The\",2023,,4.5,No,,\"2024-01-01\"" =
      ["2024-01-01", "Movie, The", "2023", "", "4.5", "No", "", "2024-01-01"] := by
  decide

/-- Claim C10: no field returned by the CSV line parser contains a quote
character; every quote, including one interior to an otherwise unquoted
field, is consumed by the quote-state toggle and never appended. -/
theorem parseCSVLine_fields_quote_free (line f : String) (h : f ∈ parseCSVLine line) :
    '"' ∉ f.data := by
  intro hmem
  exact parseCSVAux_no_quote line.data false [] (by simp) f h '"' hmem rfl

/-- Witness for C10 at a concrete line: the interior quote of `a"b` is
removed from the single produced field. -/
theorem parseCSVLine_fields_quote_free_check :
    "ab" ∈ parseCSVLine "a\"b" ∧ '"' ∉ ("ab").data :=
  ⟨by decide, parseCSVLine_fields_quote_free "a\"b" "ab" (by decide)⟩

/-- Claim C3 (counterexample): an unopenable source and a readable source
holding only the header line produce the very same return value, so the
caller receives no distinct "source unavailable" signal. -/
theorem unreadableEqualsHeaderOnly :
    readLetterboxdCSVFile none =
      readLetterboxdCSVFile
        (some ["Date,Name,Year,Letterboxd URI,Rating,Rewatch,Tags,Watched Date"]) := by
  decide

/-- Claim C3 (amended): an unreadable source yields the empty sequence, and
so does a header-only source; the unreadable case is reported only as
console text inside the reader, with no distinct value returned to the
caller. -/
theorem emptyForUnreadableAndHeaderOnly :
    readLetterboxdCSVFile none = [] ∧ ∀ h : String, readLetterboxdCSVFile (some [h]) = [] :=
  ⟨rfl, fun _ => rfl⟩

/-- Claim C4 (counterexample): the data line `2024-01-01,` parses to two
fields, the second empty, and is admitted — producing a record whose name
is the empty string. -/
theorem emptyNameAdmitted :
    (readLetterboxdCSV ["Date,Name", "2024-01-01,"]).map Movie.name = [""] := by
  decide

/-- Claim C4 (amended): records are admitted exactly for the nonempty data
lines parsing to at least two fields, mapped positionally — so malformed
lines yield no record while processing continues, but only the field count
is checked: the name attribute may be the empty string. -/
theorem admittedRecords (head : String) (rest : List String) :
    readLetterboxdCSV (head :: rest) =
      ((rest.map stripCR).filter fun l =>
        decide (l ≠ "" ∧ 2 ≤ (parseCSVLine l).length)).map
        fun l => mkMovie (parseCSVLine l) :=
  readDataLines_eq rest

/-- Claim C2 (counterexample): two sources with different numbers of
malformed lines produce identical return values, so the skipped-line count
(here per the spec's own definition) is not returned to, nor recoverable
by, the caller. -/
theorem readerReturnsNoSkipCount :
    readLetterboxdCSV ["Date,Name", "solo"] = readLetterboxdCSV ["Date,Name"] ∧
    specSkippedCount ["Date,Name", "solo"] = 1 ∧ specSkippedCount ["Date,Name"] = 0 := by
  decide

/-- Claim C2 (amended): a malformed data line (fewer than two parsed
fields) is skipped and processing continues, but the skip leaves no trace
in the returned value — only the record sequence is returned, with no
diagnostic count. -/
theorem malformedLinesLeaveNoTrace (head bad : String) (pre suf : List String)
    (h : (parseCSVLine (stripCR bad)).length < 2) :
    readLetterboxdCSV (head :: (pre ++ bad :: suf)) =
      readLetterboxdCSV (head :: (pre ++ suf)) := by
  have h2 : decide (2 ≤ (parseCSVLine (stripCR bad)).length) = false := by
    simp
    omega
  show readDataLines (pre ++ bad :: suf) = readDataLines (pre ++ suf)
  rw [readDataLines_eq, readDataLines_eq]
  simp [h2]

/-- Witness for C2 (amended) at a concrete source: the one-field line
`solo` between two valid lines changes nothing in the returned sequence. -/
theorem malformedLinesLeaveNoTrace_check :
    (parseCSVLine (stripCR "solo")).length < 2 ∧
    readLetterboxdCSV ("Date,Name" :: (["2024-01-01,Dune"] ++ "solo" :: ["2024-01-02,Heat"])) =
      readLetterboxdCSV ("Date,Name" :: (["2024-01-01,Dune"] ++ ["2024-01-02,Heat"])) :=
  ⟨by decide,
    malformedLinesLeaveNoTrace "Date,Name" "solo" ["2024-01-01,Dune"] ["2024-01-02,Heat"]
      (by decide)⟩

/-- Claim C5 (counterexample): after choosing mode "2" the one record
vector holds the reversed order — the sort step mutates the canonical
collection in place, so it no longer holds the ingestion order. -/
theorem reportOrderingMutates :
    stepMainOrdering "2" [movieA, movieB] [movieB, movieA] ∧
    [movieB, movieA] ≠ [movieA, movieB] := by
  decide

/-! ## Concrete evaluations of the numeric converter and star renderer -/

/-- The converter on `"4.5"`. -/
theorem safe_45 : safeStringToDouble "4.5" = 9/2 := by
  have h : ("4.5").data = ['4', '.', '5'] := rfl
  have hl : ("4.5").length = 3 := rfl
  simp [safeStringToDouble, stodQ, parseDecSigned, parseDecAux, parseExpPart,
    digitsVal, isSpaceChar, isDigitChar, h, hl]
  norm_num

/-- The converter on `"0"`. -/
theorem safe_0 : safeStringToDouble "0" = 0 := by
  have h : ("0").data = ['0'] := rfl
  have hl : ("0").length = 1 := rfl
  simp [safeStringToDouble, stodQ, parseDecSigned, parseDecAux, parseExpPart,
    digitsVal, isSpaceChar, isDigitChar, h, hl]

/-- The converter on `"5"`. -/
theorem safe_5 : safeStringToDouble "5" = 5 := by
  have h : ("5").data = ['5'] := rfl
  have hl : ("5").length = 1 := rfl
  simp [safeStringToDouble, stodQ, parseDecSigned, parseDecAux, parseExpPart,
    digitsVal, isSpaceChar, isDigitChar, h, hl]

/-- The converter on `"4"`. -/
theorem safe_4 : safeStringToDouble "4" = 4 := by
  have h : ("4").data = ['4'] := rfl
  have hl : ("4").length = 1 := rfl
  simp [safeStringToDouble, stodQ, parseDecSigned, parseDecAux, parseExpPart,
    digitsVal, isSpaceChar, isDigitChar, h, hl]

/-- The converter on `"-1"`: `stod` accepts a sign, so the value is the
negative, nonzero number -1. -/
theorem safe_neg1 : safeStringToDouble "-1" = -1 := by
  have h : ("-1").data = ['-', '1'] := rfl
  have hl : ("-1").length = 2 := rfl
  simp [safeStringToDouble, stodQ, parseDecSigned, parseDecAux, parseExpPart,
    digitsVal, isSpaceChar, isDigitChar, h, hl]

/-- On `"7x"` the modelled `stod` converts the prefix `7` and stops after
one character. -/
theorem stodQ_7x : stodQ "7x" = some (7, 1) := by
  have h : ("7x").data = ['7', 'x'] := rfl
  simp [stodQ, parseDecSigned, parseDecAux, parseExpPart, digitsVal,
    isSpaceChar, isDigitChar, h]

/-- The C cast of 4.5 to `int` is 4. -/
theorem ratTrunc_92 : ratTrunc (9/2 : Rat) = 4 := by
  rw [ratTrunc, if_pos (by norm_num : (0:Rat) ≤ 9/2)]
  rw [Int.floor_eq_iff]
  norm_num

/-- The C cast of 5 to `int` is 5. -/
theorem ratTrunc_5 : ratTrunc (5 : Rat) = 5 := by
  rw [ratTrunc, if_pos (by norm_num : (0:Rat) ≤ 5)]
  rw [Int.floor_eq_iff]
  norm_num

/-- The star renderer on `"4.5"`: four whole markers, the half marker with
no separating space, then the literal fraction. -/
theorem ratingToStars_45 : ratingToStars "4.5" = "****½ (4.5/5)" := by
  rw [ratingToStars, if_neg (by decide : ¬("4.5" : String) = "")]
  simp only [safe_45, ratTrunc_92]
  rw [if_neg (by norm_num : ¬((9:Rat)/2) = 0)]
  rw [if_pos (by norm_num : (1:Rat)/2 ≤ (9:Rat)/2 - ((4:Int) : Rat))]
  decide

/-- The star renderer on `"5"`: five whole markers, no half marker. -/
theorem ratingToStars_5 : ratingToStars "5" = "***** (5/5)" := by
  rw [ratingToStars, if_neg (by decide : ¬("5" : String) = "")]
  simp only [safe_5, ratTrunc_5]
  rw [if_neg (by norm_num : ¬(5:Rat) = 0)]
  rw [if_neg (by norm_num : ¬((1:Rat)/2 ≤ (5:Rat) - ((5:Int) : Rat)))]
  decide

/-- The star renderer on `"0"` renders nothing. -/
theorem ratingToStars_0 : ratingToStars "0" = "" := by
  rw [ratingToStars, if_neg (by decide : ¬("0" : String) = "")]
  simp only [safe_0]
  simp

/-- Claim C7: the safe numeric converter is a total function with the
zero-default policy: `""` to 0, `"4.5"` to 4.5, trailing non-numeric
characters after a numeric prefix (`"4.5abc"`) to 0 with no partial-parse
acceptance, fully non-numeric input (`"abc"`) to 0; in general any parse
that does not consume the entire string yields 0. -/
theorem safeStringToDouble_policy :
    safeStringToDouble "" = 0 ∧ safeStringToDouble "4.5" = 4.5 ∧
    safeStringToDouble "4.5abc" = 0 ∧ safeStringToDouble "abc" = 0 ∧
    ∀ s v idx, stodQ s = some (v, idx) → idx ≠ s.length → safeStringToDouble s = 0 := by
  refine ⟨rfl, ?_, by decide, by decide, ?_⟩
  · rw [safe_45]
    norm_num
  · intro s v idx hsome hne
    by_cases hs : s = ""
    · subst hs
      rfl
    · simp [safeStringToDouble, hs, hsome, hne]

/-- Witness for C7 at `"7x"`: the numeric prefix 7 is parsed but one
character remains unconsumed, so the converter returns 0. -/
theorem safeStringToDouble_policy_check :
    stodQ "7x" = some (7, 1) ∧ (1 : Nat) ≠ ("7x").length ∧ safeStringToDouble "7x" = 0 :=
  ⟨stodQ_7x, by decide, safeStringToDouble_policy.2.2.2.2 "7x" 7 1 stodQ_7x (by decide)⟩

/-- Claim C6 (counterexample): the rendered string for rating `"4.5"` has
no space between the whole-star markers and the half marker, so it is not
the spec's `"**** ½ (4.5/5)"`. -/
theorem ratingToStarsNoSpace : ratingToStars "4.5" ≠ "**** ½ (4.5/5)" := by
  rw [ratingToStars_45]
  decide

/-- Claim C6 (amended): rating `"4.5"` renders as `"****½ (4.5/5)"` — four
whole markers and the half marker with no separating space, then the
literal fraction; `"0"` and `""` render as the empty string; `"5"` renders
five whole markers with no half marker, followed by the literal
fraction. -/
theorem ratingToStarsExamples :
    ratingToStars "4.5" = "****½ (4.5/5)" ∧ ratingToStars "0" = "" ∧
    ratingToStars "" = "" ∧ ratingToStars "5" = "***** (5/5)" :=
  ⟨ratingToStars_45, ratingToStars_0, rfl, ratingToStars_5⟩

/-! ## Statistics lemmas -/

/-- Unrolling the statistics loop from any accumulator: the rated count,
rating total and rewatch count each grow by the contribution of the
processed records. -/
theorem computeStats_foldl (ms : List Movie) : ∀ s : DiaryStats,
    ms.foldl statsStep s =
      ⟨s.ratedMovies +
        (ms.filter fun m => decide (m.rating ≠ "" ∧ 0 < safeStringToDouble m.rating)).length,
       s.totalRating +
        (((ms.filter fun m => decide (m.rating ≠ "" ∧ 0 < safeStringToDouble m.rating)).map
          fun m => safeStringToDouble m.rating).sum),
       s.rewatchCount +
        (ms.filter fun m => decide (m.rewatch ≠ "" ∧ m.rewatch ≠ "No")).length⟩ := by
  induction ms with
  | nil =>
    intro s
    simp
  | cons m rest ih =>
    intro s
    rw [List.foldl_cons, ih]
    by_cases h1 : m.rating ≠ "" ∧ 0 < safeStringToDouble m.rating
    · by_cases h2 : m.rewatch ≠ "" ∧ m.rewatch ≠ "No"
      · simp [statsStep, h1, h2, DiaryStats.mk.injEq]
        refine ⟨by omega, by ring, by omega⟩
      · simp [statsStep, h1, h2, DiaryStats.mk.injEq]
        refine ⟨by omega, by ring⟩
    · by_cases h2 : m.rewatch ≠ "" ∧ m.rewatch ≠ "No"
      · simp [statsStep, h1, h2, DiaryStats.mk.injEq]
        omega
      · simp [statsStep, h1, h2, DiaryStats.mk.injEq]

/-- The statistics on the sample records rated "4", "0" and "": one rated
record, total 4, one rewatch. -/
theorem computeStats_sample :
    computeStats [movieRated4, movieRated0, movieUnrated] = ⟨1, 4, 1⟩ := by
  simp [computeStats, statsStep, movieRated4, movieRated0, movieUnrated, safe_4, safe_0]

/-- Claim C9 (counterexample): a record with rating `"-1"` has a nonempty
rating converting to a nonzero value, yet the statistics do not count it as
rated — the loop requires a strictly positive value, not merely a nonzero
one. -/
theorem statsNegativeRatingNotCounted :
    (computeStats [movieNegRated]).ratedMovies = 0 ∧
    movieNegRated.rating ≠ "" ∧ safeStringToDouble movieNegRated.rating ≠ 0 := by
  refine ⟨?_, by decide, ?_⟩
  · simp [computeStats, statsStep, movieNegRated, safe_neg1]
    norm_num
  · have h : movieNegRated.rating = "-1" := rfl
    rw [h, safe_neg1]
    norm_num

/-- Claim C9 (amended): the statistics count as rated exactly the records
whose rating is nonempty and converts to a strictly positive value, and
total exactly those converted ratings (the displayed average being that
total over that count); for the record sequence with ratings
[4, 0, ""] the rated count is 1 and the average 4. -/
theorem statsRatedCharacterization :
    (∀ movies : List Movie,
      (computeStats movies).ratedMovies =
        (movies.filter fun m =>
          decide (m.rating ≠ "" ∧ 0 < safeStringToDouble m.rating)).length ∧
      (computeStats movies).totalRating =
        (((movies.filter fun m =>
          decide (m.rating ≠ "" ∧ 0 < safeStringToDouble m.rating)).map
            fun m => safeStringToDouble m.rating).sum)) ∧
    (computeStats [movieRated4, movieRated0, movieUnrated]).ratedMovies = 1 ∧
    averageRating [movieRated4, movieRated0, movieUnrated] = 4 := by
  refine ⟨?_, ?_, ?_⟩
  · intro movies
    unfold computeStats
    rw [computeStats_foldl]
    constructor <;> simp
  · rw [computeStats_sample]
  · rw [averageRating, computeStats_sample]
    norm_num

/-! ## Order lemmas for the sort comparators -/

/-- String comparison is irreflexive. -/
theorem cppStrLt_irrefl (l : List Char) : cppStrLt l l = false := by
  induction l with
  | nil => rfl
  | cons a as ih => simp [cppStrLt, ih]

/-- String comparison is transitive. -/
theorem cppStrLt_trans : ∀ a b c : List Char,
    cppStrLt a b = true → cppStrLt b c = true → cppStrLt a c = true := by
  intro a
  induction a with
  | nil =>
    intro b c hab hbc
    cases b with
    | nil => simp [cppStrLt] at hab
    | cons y ys =>
      cases c with
      | nil => simp [cppStrLt] at hbc
      | cons z zs => rfl
  | cons x xs ih =>
    intro b c hab hbc
    cases b with
    | nil => simp [cppStrLt] at hab
    | cons y ys =>
      cases c with
      | nil => simp [cppStrLt] at hbc
      | cons z zs =>
        simp only [cppStrLt] at hab hbc ⊢
        by_cases hxy : x.toNat < y.toNat
        · by_cases hyz : y.toNat < z.toNat
          · rw [if_pos (by omega : x.toNat < z.toNat)]
          · rw [if_neg hyz] at hbc
            by_cases hzy : z.toNat < y.toNat
            · rw [if_pos hzy] at hbc
              exact absurd hbc (by simp)
            · rw [if_pos (by omega : x.toNat < z.toNat)]
        · rw [if_neg hxy] at hab
          by_cases hyx : y.toNat < x.toNat
          · rw [if_pos hyx] at hab
            exact absurd hab (by simp)
          · rw [if_neg hyx] at hab
            by_cases hyz : y.toNat < z.toNat
            · rw [if_pos (by omega : x.toNat < z.toNat)]
            · rw [if_neg hyz] at hbc
              by_cases hzy : z.toNat < y.toNat
              · rw [if_pos hzy] at hbc
                exact absurd hbc (by simp)
              · rw [if_neg hzy] at hbc
                rw [if_neg (by omega : ¬ x.toNat < z.toNat),
                  if_neg (by omega : ¬ z.toNat < x.toNat)]
                exact ih ys zs hab hbc

/-- String comparison is total: when `a` is not below `b`, either `b` is
below `a` or they are equal. -/
theorem cppStrLt_total : ∀ a b : List Char,
    cppStrLt a b = false → cppStrLt b a = true ∨ a = b := by
  intro a
  induction a with
  | nil =>
    intro b hab
    cases b with
    | nil => right; rfl
    | cons y ys => simp [cppStrLt] at hab
  | cons x xs ih =>
    intro b hab
    cases b with
    | nil => left; rfl
    | cons y ys =>
      simp only [cppStrLt] at hab ⊢
      by_cases hxy : x.toNat < y.toNat
      · rw [if_pos hxy] at hab
        exact absurd hab (by simp)
      · rw [if_neg hxy] at hab
        by_cases hyx : y.toNat < x.toNat
        · left
          rw [if_pos hyx]
        · rw [if_neg hyx] at hab
          have hx : x = y := by
            have hn : x.toNat = y.toNat := by omega
            calc x = Char.ofNat x.toNat := (Char.ofNat_toNat x).symm
            _ = Char.ofNat y.toNat := by rw [hn]
            _ = y := Char.ofNat_toNat y
          rcases ih ys hab with h | h
          · left
            rw [if_neg (by omega : ¬ y.toNat < x.toNat),
              if_neg (by omega : ¬ x.toNat < y.toNat)]
            exact h
          · right
            rw [hx, h]

/-- The negation of string comparison is transitive (as needed to pass
from adjacent sortedness to global sortedness). -/
theorem cppNotLt_trans {a b c : List Char} (h1 : cppStrLt b a = false)
    (h2 : cppStrLt c b = false) : cppStrLt c a = false := by
  by_contra hca
  simp only [Bool.not_eq_false] at hca
  rcases cppStrLt_total b a h1 with hab | hba
  · rcases cppStrLt_total c b h2 with hbc | hcb
    · have hcb2 := cppStrLt_trans c a b hca hab
      simp [hcb2] at h2
    · subst hcb
      simp [hca] at h1
  · subst hba
    simp [hca] at h2

/-- For a transitive adjacency condition, `std::is_sorted` on adjacent
pairs gives sortedness of every pair. -/
theorem adjSortedB_pairwise (f : Movie → Movie → Bool)
    (tr : ∀ a b c, f a b = true → f b c = true → f a c = true) :
    ∀ l : List Movie, adjSortedB f l = true → l.Pairwise (fun a b => f a b = true) := by
  intro l
  induction l with
  | nil =>
    intro _
    exact List.Pairwise.nil
  | cons a rest ih =>
    cases rest with
    | nil =>
      intro _
      simp
    | cons b rest2 =>
      intro h
      simp only [adjSortedB, Bool.and_eq_true] at h
      have hp := ih h.2
      refine List.Pairwise.cons ?_ hp
      intro x hx
      rcases List.mem_cons.mp hx with rfl | hx2
      · exact h.1
      · exact tr a b x h.1 ((List.pairwise_cons.mp hp).1 x hx2)

/-- Claim C1 (counterexample): the contract of `std::sort` admits, for two
distinct records sharing one name, an output in which their ingestion
order is swapped — so alphabetical-mode sorting is not guaranteed to be
stable (the code uses `std::sort`, not `std::stable_sort`). -/
theorem sortStabilityUnderdetermined :
    ¬ (∀ input output : List Movie, IsCppSortResult movieNameLtB input output →
        relOrderPreserved (fun a b => a.name = b.name) input output) := by
  intro hclaim
  have h := hclaim [movieA, movieB] [movieB, movieA] (by decide)
  exact absurd h (by decide)

/-- Claim C1 (amended): every admissible outcome of the sort step is a
permutation of the ingested records that is ordered nondecreasingly by
name in alphabetical mode, and nonincreasingly by converted rating in
rating-descending mode; the relative order of records with equal keys is
not determined. -/
theorem sortContractOrders (input output : List Movie) :
    (IsCppSortResult movieNameLtB input output →
      output.Perm input ∧
        output.Pairwise (fun a b => cppStrLt b.name.data a.name.data = false)) ∧
    (IsCppSortResult movieRatingGtB input output →
      output.Perm input ∧
        output.Pairwise (fun a b =>
          safeStringToDouble b.rating ≤ safeStringToDouble a.rating)) := by
  constructor
  · rintro ⟨hperm, hsort⟩
    refine ⟨hperm.symm, ?_⟩
    have tr : ∀ a b c : Movie, (!movieNameLtB b a) = true → (!movieNameLtB c b) = true →
        (!movieNameLtB c a) = true := by
      intro a b c h1 h2
      simp only [movieNameLtB, Bool.not_eq_true'] at h1 h2 ⊢
      exact cppNotLt_trans h1 h2
    have hp := adjSortedB_pairwise _ tr output hsort
    refine hp.imp ?_
    intro a b hab
    simpa [movieNameLtB] using hab
  · rintro ⟨hperm, hsort⟩
    refine ⟨hperm.symm, ?_⟩
    have tr : ∀ a b c : Movie, (!movieRatingGtB b a) = true → (!movieRatingGtB c b) = true →
        (!movieRatingGtB c a) = true := by
      intro a b c h1 h2
      simp only [movieRatingGtB, Bool.not_eq_true', decide_eq_false_iff_not, not_lt] at h1 h2 ⊢
      exact le_trans h2 h1
    have hp := adjSortedB_pairwise _ tr output hsort
    refine hp.imp ?_
    intro a b hab
    simpa [movieRatingGtB, not_lt] using hab

/-- Witness for C1 (amended) at a singleton list, which is an admissible
sort outcome of itself. -/
theorem sortContractOrders_check :
    IsCppSortResult movieNameLtB [movieA] [movieA] ∧
    ([movieA].Perm [movieA] ∧
      [movieA].Pairwise (fun a b => cppStrLt b.name.data a.name.data = false)) :=
  ⟨by decide, (sortContractOrders [movieA] [movieA]).1 (by decide)⟩

/-- Claim C5 (amended): the sort step reorders the single record vector in
place — afterwards it holds a permutation of the ingested records in the
chosen display order, and it retains the ingestion order only for the
default (recency) choice. -/
theorem reportOrderingPermutes (choice : String) (input output : List Movie)
    (h : stepMainOrdering choice input output) :
    output.Perm input ∧ (choice ≠ "2" → choice ≠ "3" → choice ≠ "4" → output = input) := by
  by_cases hc2 : choice = "2"
  · unfold stepMainOrdering at h
    rw [if_pos hc2] at h
    subst h
    exact ⟨List.reverse_perm input, fun hne _ _ => absurd hc2 hne⟩
  · by_cases hc3 : choice = "3"
    · unfold stepMainOrdering at h
      rw [if_neg hc2, if_pos hc3] at h
      exact ⟨h.1.symm, fun _ hne _ => absurd hc3 hne⟩
    · by_cases hc4 : choice = "4"
      · unfold stepMainOrdering at h
        rw [if_neg hc2, if_neg hc3, if_pos hc4] at h
        exact ⟨h.1.symm, fun _ _ hne => absurd hc4 hne⟩
      · unfold stepMainOrdering at h
        rw [if_neg hc2, if_neg hc3, if_neg hc4] at h
        rw [h]
        exact ⟨List.Perm.refl input, fun _ _ _ => rfl⟩

/-- Witness for C5 (amended) at choice "2" on a singleton vector. -/
theorem reportOrderingPermutes_check :
    stepMainOrdering "2" [movieA] [movieA] ∧
    ([movieA].Perm [movieA] ∧
      ("2" ≠ "2" → "2" ≠ "3" → "2" ≠ "4" → [movieA] = [movieA])) :=
  ⟨by decide, reportOrderingPermutes "2" [movieA] [movieA] (by decide)⟩
